import Mathlib

/-!
Widget core of `ballistica/ui/widget/widget.cc`.

A shallow embedding of the `Widget` base class: the depth range setter, the
owner/parent links, the selection flag with its deferred select call, the
delete calls run by the destructor, and the two coordinate maps that walk the
parent chain.

Conventions of the embedding

* A non-null `Widget*` / `ContainerWidget*` is a `WidgetId` (the address of a
  live object); a nullable pointer is an `Option WidgetId`; the objects live in
  a `Heap`.
* `float` values are rationals: the functions embedded here only store,
  compare and pass them on, they perform no rounding arithmetic themselves.
* `Object::Ref<PythonContextCall>` is a `CallRef` (the identity of the call
  object); a null ref is `none`.
* Loops that follow pointers take a fuel argument, one unit per iteration;
  `none` stands for "the loop did not finish within the fuel".
* The global `g_ui` is an `Option UI`, `none` before the UI is created; where
  the source evaluates `g_ui->...` with no test of `g_ui`, a null `g_ui` gives
  a `Fault` in place of a returned value.
-/

namespace Ballistica

/-- Address of a live widget object. -/
abbrev WidgetId := Nat

/-- Identity of a `PythonContextCall` object. -/
abbrev CallRef := Nat

/-- A point `(x, y)`, passed in the source as `float* x, float* y`. -/
abbrev Point := ℚ × ℚ

/-- The data members of `Widget` that the embedded member functions read or
write. -/
structure Widget where
  selected_ : Bool
  parent_widget_ : Option WidgetId
  owner_widget_ : Option WidgetId
  depth_range_min_ : ℚ
  depth_range_max_ : ℚ
  on_select_call_ : Option CallRef
  on_delete_calls_ : List CallRef

/-- The widget objects, by address. -/
abbrev Heap := WidgetId → Widget

/-- The part of the `g_ui` singleton that `Widget` consults. -/
structure UI where
  root_widget : Option WidgetId
  screen_root_widget : Option WidgetId
  overlay_root_widget : Option WidgetId

/-- Which of the two `BA_PRECONDITION` lines of `SetDepthRange` failed. -/
inductive PreconditionFailure where
  | min_depth_out_of_range
  | max_depth_out_of_range
  deriving DecidableEq, Repr

/-- Modelled from the spec: the `BA_PRECONDITION` macro is declared outside the
sources at hand; a violated precondition "is a fatal contract violation", so the
statements after it are not reached. `BA_PRECONDITION b` continues when `b`
holds and otherwise leaves the function with the given failure. -/
def BA_PRECONDITION (b : Bool) (e : PreconditionFailure) :
    Except PreconditionFailure Unit :=
  if b then Except.ok () else Except.error e

/-- Embedding of `Widget::SetDepthRange` (widget.cc 40-45). -/
def SetDepthRange (this : Widget) (min_depth max_depth : ℚ) :
    Except PreconditionFailure Widget := do
  BA_PRECONDITION (decide (min_depth ≥ 0 ∧ min_depth ≤ 1))
    PreconditionFailure.min_depth_out_of_range
  BA_PRECONDITION (decide (max_depth ≥ min_depth ∧ max_depth ≤ 1))
    PreconditionFailure.max_depth_out_of_range
  pure { this with depth_range_min_ := min_depth, depth_range_max_ := max_depth }

/-- Embedding of `Widget::GetOwnerWidget` (widget.cc 150-152):
`parent_widget_ ? parent_widget_ : owner_widget_`. -/
def GetOwnerWidget (this : Widget) : Option WidgetId :=
  match this.parent_widget_ with
  | some parent => some parent
  | none => this.owner_widget_

/-- Whether a call of `SetDepthRange` returned normally. -/
def succeeded {α : Type} (r : Except PreconditionFailure α) : Bool :=
  match r with
  | Except.ok _ => true
  | Except.error _ => false

/-- The two virtual point maps of `ContainerWidget`, which is declared outside
the sources at hand: `TransformPointToChild c child p` is
`c->TransformPointToChild(&x, &y, child)` and likewise for `FromChild`. They are
parameters of the embedding; nothing is assumed about them. -/
structure ContainerTransforms where
  TransformPointToChild : WidgetId → WidgetId → Point → Point
  TransformPointFromChild : WidgetId → WidgetId → Point → Point

/-- The loop `while (w) { widgets.push_back(w); w = w->parent_widget(); }` of
`WidgetPointToScreen` and `ScreenPointToWidget`, returning the vector
`widgets` it builds. -/
def collectParents (heap : Heap) : Nat → Option WidgetId → Option (List WidgetId)
  | _, none => some []
  | 0, some _ => none
  | fuel + 1, some w =>
    match collectParents heap fuel (heap w).parent_widget_ with
    | none => none
    | some widgets => some (w :: widgets)

/-- Embedding of `Widget::WidgetPointToScreen` (widget.cc 154-170). `widgets[i]` is
`widgets.getD i 0`; the indices used are always in range. -/
def WidgetPointToScreen (heap : Heap) (T : ContainerTransforms) (fuel : Nat)
    (this : WidgetId) (p : Point) : Option Point :=
  match (heap this).parent_widget_ with
  | none => some p
  | some w =>
    match collectParents heap fuel (some w) with
    | none => none
    | some widgets =>
      let p0 := T.TransformPointFromChild (widgets.getD 0 0) this p
      some ((List.range' 1 (widgets.length - 1)).foldl
        (fun q i => T.TransformPointFromChild (widgets.getD i 0) (widgets.getD (i - 1) 0) q)
        p0)

/-- The transform part of `Widget::ScreenPointToWidget` (widget.cc 182-196),
which is all of the function when the sanity test is compiled out. The loop
`for (int i = size - 1; i > 0; i--)` visits the indices `size - 1, ..., 1`. -/
def ScreenPointToWidget_transform (heap : Heap) (T : ContainerTransforms) (fuel : Nat)
    (this : WidgetId) (p : Point) : Option Point :=
  match (heap this).parent_widget_ with
  | none => some p
  | some w =>
    match collectParents heap fuel (some w) with
    | none => none
    | some widgets =>
      let q := (List.range' 1 (widgets.length - 1)).reverse.foldl
        (fun q i => T.TransformPointToChild (widgets.getD i 0) (widgets.getD (i - 1) 0) q)
        p
      some (T.TransformPointToChild (widgets.getD 0 0) this q)

/-- One line written by `Log(LogLevel::kError, "ScreenPointToWidget sanity
check error: expected (..) got (..)")`. -/
structure SanityCheckError where
  expected : Point
  got : Point

/-- Embedding of `Widget::ScreenPointToWidget` (widget.cc 176-210). `debug_build` is
`BA_DEBUG_BUILD || BA_TEST_BUILD`; the result is the point left in `*x, *y`
together with the error lines logged. The tolerance `0.01f` is taken as
`1/100`. -/
def ScreenPointToWidget (debug_build : Bool) (heap : Heap) (T : ContainerTransforms)
    (fuel : Nat) (this : WidgetId) (p : Point) : Option (Point × List SanityCheckError) :=
  let old := p
  match ScreenPointToWidget_transform heap T fuel this p with
  | none => none
  | some q =>
    if debug_build then
      match WidgetPointToScreen heap T fuel this q with
      | none => none
      | some test =>
        if |test.1 - old.1| > 1 / 100 ∨ |test.2 - old.2| > 1 / 100 then
          some (q, [{ expected := old, got := test }])
        else
          some (q, [])
    else
      some (q, [])

/-- The composition described by "apply `TransformPointToChild` from the
outermost ancestor inward": for `chain = [c1, ..., cn]` (immediate parent
first) it is `c1.ToChild(c2.ToChild(... cn.ToChild(p, c(n-1)) ..., c1), child)`. -/
def toChildOutermostFirst (T : ContainerTransforms) :
    WidgetId → List WidgetId → Point → Point
  | _, [], p => p
  | child, c :: rest, p => T.TransformPointToChild c child (toChildOutermostFirst T c rest p)

/-- The composition described by "apply `TransformPointFromChild` starting at
the outermost ancestor and working inward": for `chain = [c1, ..., cn]` the map
of `cn` is applied to the input first and the map of `c1` last. -/
def fromChildOutermostFirst (T : ContainerTransforms) :
    WidgetId → List WidgetId → Point → Point
  | _, [], p => p
  | child, c :: rest, p => T.TransformPointFromChild c child (fromChildOutermostFirst T c rest p)

/-- The composition that starts at the immediate parent and works outward:
for `chain = [c1, ..., cn]` the map of `c1` is applied to the input first and
the map of `cn` last. -/
def fromChildInnermostFirst (T : ContainerTransforms) :
    WidgetId → List WidgetId → Point → Point
  | _, [], p => p
  | child, c :: rest, p => fromChildInnermostFirst T c rest (T.TransformPointFromChild c child p)

/-- At every level of the chain the container's two maps for that child are
inverse to each other. -/
def MutuallyInverseAtEveryLevel (T : ContainerTransforms) : WidgetId → List WidgetId → Prop
  | _, [] => True
  | child, c :: rest =>
    (∀ p, T.TransformPointToChild c child (T.TransformPointFromChild c child p) = p)
    ∧ (∀ p, T.TransformPointFromChild c child (T.TransformPointToChild c child p) = p)
    ∧ MutuallyInverseAtEveryLevel T c rest

/-- A call that does not return a value because it left defined behaviour. -/
inductive Fault where
  | null_g_ui_dereferenced
  deriving DecidableEq, Repr

/-- Embedding of `Widget::IsHierarchySelected` (widget.cc 96-108), called on the widget at
address `p` (the initial `this`). One unit of fuel per iteration of
`while (true)`. `g_ui` is the global pointer, `none` before the UI is created:
in `!p || p == g_ui->root_widget()` a null `p` ends the loop before `g_ui` is
touched, and a non-null `p` has `g_ui->root_widget()` evaluated with no test
of `g_ui`, which with `g_ui` null is a null dereference and the call returns
nothing. `g_ui->root_widget()` itself may be null. -/
def IsHierarchySelected (heap : Heap) (g_ui : Option UI) :
    Nat → WidgetId → Option (Except Fault Bool)
  | 0, _ => none
  | fuel + 1, p =>
    if !(heap p).selected_ then
      some (Except.ok false)
    else
      match GetOwnerWidget (heap p) with
      | none => some (Except.ok true)
      | some p' =>
        match g_ui with
        | none => some (Except.error Fault.null_g_ui_dereferenced)
        | some ui =>
          if some p' = ui.root_widget then some (Except.ok true)
          else IsHierarchySelected heap g_ui fuel p'

/-- The strict ancestors of a widget through `GetOwnerWidget` links, nearest
first, when following the links reaches a null owner within the fuel. -/
def ownerChain (heap : Heap) : Nat → Option WidgetId → Option (List WidgetId)
  | _, none => some []
  | 0, some _ => none
  | fuel + 1, some w =>
    match ownerChain heap fuel (GetOwnerWidget (heap w)) with
    | none => none
    | some owners => some (w :: owners)

/-- The nodes "along the path (including self)" from `w` upward, "up to (but
not including) the designated root": `w` itself, then its owners in order for
as long as they are not the root widget. -/
def selectionPath (g_ui : UI) (w : WidgetId) (owners : List WidgetId) : List WidgetId :=
  w :: owners.takeWhile (fun x => decide (some x ≠ g_ui.root_widget))

/-- The part of the `g_logic` singleton that `Widget` reaches: the queue of
weak call references waiting for the next cycle (front of the queue first), and
a record of the call objects run so far, oldest first. -/
structure Logic where
  weak_calls : List CallRef
  ran : List CallRef

/-- Modelled from the spec: `Logic::PushPythonWeakCall` is defined outside the
sources at hand. It "enqueues work onto a single cooperative, FIFO,
single-threaded queue"; the reference is put at the back and nothing is run. -/
def PushPythonWeakCall (g_logic : Logic) (call : CallRef) : Logic :=
  { g_logic with weak_calls := g_logic.weak_calls ++ [call] }

/-- Modelled from the spec: the calls that one drain of the queue runs, in
order. The queue is "drained once per update cycle", front first, and a weak
reference whose target was destroyed "is silently dropped"; `alive` tells which
call objects still exist at the drain. -/
def callsRunByDrain (alive : CallRef → Bool) (g_logic : Logic) : List CallRef :=
  g_logic.weak_calls.filter alive

/-- Modelled from the spec: one drain of the queue, defined outside the sources
at hand. It runs `callsRunByDrain` and leaves the queue empty. -/
def drainWeakCalls (alive : CallRef → Bool) (g_logic : Logic) : Logic :=
  { weak_calls := [], ran := g_logic.ran ++ callsRunByDrain alive g_logic }

/-- Embedding of `Widget::SetSelected` (widget.cc 85-94). `cause` is not used by the body;
its type `SelectionCause` is declared outside the sources at hand and is a
parameter. `on_select_call_.exists()` is `on_select_call_` being non-null. -/
def SetSelected {SelectionCause : Type} (this : Widget) (s : Bool) (_cause : SelectionCause)
    (g_logic : Logic) : Widget × Logic :=
  if this.selected_ = s then
    (this, g_logic)
  else
    let this' := { this with selected_ := s }
    match this'.selected_, this'.on_select_call_ with
    | true, some call => (this', PushPythonWeakCall g_logic call)
    | _, _ => (this', g_logic)

/-- The virtual `ContainerWidget::SelectWidget`, declared outside the sources at
hand: `SelectWidget c w heap` is the heap after `c->SelectWidget(w)`. It is a
parameter of the embedding. -/
abbrev SelectWidgetBehaviour := WidgetId → WidgetId → Heap → Heap

/-- The `while (true)` loop of `Widget::GlobalSelect` (widget.cc 124-131), entered
with the current `w` and non-null `c`. `calls` is the record of the
`c->SelectWidget(w)` calls made so far, as pairs `(c, w)`, oldest first. -/
def GlobalSelect_loop (SelectWidget : SelectWidgetBehaviour) :
    Nat → Heap → WidgetId → WidgetId → List (WidgetId × WidgetId) →
      Option (Heap × List (WidgetId × WidgetId))
  | 0, _, _, _, _ => none
  | fuel + 1, heap, w, c, calls =>
    let heap' := SelectWidget c w heap
    let calls' := calls ++ [(c, w)]
    match (heap' c).parent_widget_ with
    | none => some (heap', calls')
    | some c' => GlobalSelect_loop SelectWidget fuel heap' c c' calls'

/-- Embedding of `Widget::GlobalSelect` (widget.cc 118-132): the heap after the
call and the `SelectWidget` calls it made, in order. -/
def GlobalSelect (SelectWidget : SelectWidgetBehaviour) (fuel : Nat) (heap : Heap)
    (this : WidgetId) : Option (Heap × List (WidgetId × WidgetId)) :=
  match (heap this).parent_widget_ with
  | none => some (heap, [])
  | some c => GlobalSelect_loop SelectWidget fuel heap this c []

/-- The calls `c1.SelectWidget(w), c2.SelectWidget(c1), ..., cn.SelectWidget(c(n-1))`
for the chain `[c1, ..., cn]`, as pairs `(container, argument)`. -/
def selectCallsUpward : WidgetId → List WidgetId → List (WidgetId × WidgetId)
  | _, [] => []
  | w, c :: rest => (c, w) :: selectCallsUpward c rest

/-- The heap after a sequence of `SelectWidget` calls, each applied to the heap
the previous one left. -/
def applySelectCalls (SelectWidget : SelectWidgetBehaviour) :
    List (WidgetId × WidgetId) → Heap → Heap
  | [], heap => heap
  | (c, w) :: rest, heap => applySelectCalls SelectWidget rest (SelectWidget c w heap)

/-- A `SelectWidget` leaves every `parent_widget_` link as it found it (it is a
"container-specific focus action"; the links are set when a container attaches
a child). -/
def KeepsParentLinks (SelectWidget : SelectWidgetBehaviour) : Prop :=
  ∀ c w heap x, ((SelectWidget c w heap) x).parent_widget_ = (heap x).parent_widget_

/-- The loop `while (parent != nullptr) { if (parent == root) return true;
parent = parent->parent_widget_; } return false;` that `IsInMainStack`
(widget.cc 60-67) and `IsInOverlayStack` (widget.cc 75-82) both end with, started
at `parent`. `root` is the pointer the loop compares with, possibly null. -/
def searchAncestors (heap : Heap) (root : Option WidgetId) :
    Nat → Option WidgetId → Option Bool
  | _, none => some false
  | 0, some _ => none
  | fuel + 1, some parent =>
    if some parent = root then some true
    else searchAncestors heap root fuel (heap parent).parent_widget_

/-- Embedding of `Widget::IsInMainStack` (widget.cc 47-68). `g_ui` is the global
pointer, `none` before the UI is created. The `BA_LOG_ONCE` line only writes a
diagnostic. `assert(screen_root)` is an engineering-time check that is compiled
out under `NDEBUG`; the function is embedded as built without assertions, where
the `if (!screen_root)` after it decides. -/
def IsInMainStack (heap : Heap) (g_ui : Option UI) (fuel : Nat) (this : WidgetId) :
    Option Bool :=
  match g_ui with
  | none => some false
  | some ui =>
    match ui.screen_root_widget with
    | none => some false
    | some screen_root =>
      searchAncestors heap (some screen_root) fuel (heap this).parent_widget_

/-- Embedding of `Widget::IsInOverlayStack` (widget.cc 70-83). Its first statement
evaluates `g_ui->overlay_root_widget()` with no test of `g_ui`; with `g_ui` null
that is a null dereference and the call returns nothing. `assert(overlay_root)`
is compiled out under `NDEBUG` as in `IsInMainStack`; no `if` follows it here,
so the loop runs with a possibly null `overlay_root`. -/
def IsInOverlayStack (heap : Heap) (g_ui : Option UI) (fuel : Nat) (this : WidgetId) :
    Except Fault (Option Bool) :=
  match g_ui with
  | none => Except.error Fault.null_g_ui_dereferenced
  | some ui =>
    Except.ok (searchAncestors heap ui.overlay_root_widget fuel (heap this).parent_widget_)

/-- The pointer reached from `start` by following `n` parent links. -/
def ancestorAt (heap : Heap) : Nat → Option WidgetId → Option WidgetId
  | 0, start => start
  | _ + 1, none => none
  | n + 1, some c => ancestorAt heap n (heap c).parent_widget_

/-- The container `root` is one of the ancestors of `w` reached through
`parent_widget_` links: the parent, or the parent of the parent, and so on. -/
def IsAncestor (heap : Heap) (root w : WidgetId) : Prop :=
  ∃ n, ancestorAt heap n (heap w).parent_widget_ = some root

/-- The depth-range invariant of the data model:
`0 ≤ depth_range_min_ ≤ depth_range_max_ ≤ 1`. -/
def DepthRangeInvariant (w : Widget) : Prop :=
  0 ≤ w.depth_range_min_ ∧ w.depth_range_min_ ≤ w.depth_range_max_ ∧ w.depth_range_max_ ≤ 1

instance (w : Widget) : Decidable (DepthRangeInvariant w) := by
  unfold DepthRangeInvariant
  infer_instance

/-- The widget as it is after a call of `SetDepthRange`: the updated widget
when the call returned, and the widget as it was when the call left through a
`BA_PRECONDITION`, both of which stand before the two assignments. -/
def widgetAfterSetDepthRange (this : Widget) (min_depth max_depth : ℚ) : Widget :=
  match SetDepthRange this min_depth max_depth with
  | Except.ok this' => this'
  | Except.error _ => this

/-- The parent links form a tree: from every widget the walk up the
`parent_widget_` links ends. -/
def ParentLinksFormTree (heap : Heap) : Prop :=
  ∀ w, ∃ fuel chain, collectParents heap fuel (heap w).parent_widget_ = some chain

/-- The recursive definition of the widget-to-screen map: a widget without a
parent is in screen space already; otherwise map the point into the space of
the parent `c` with `c.TransformPointFromChild(p, w)` and continue from `c`. -/
def WidgetPointToScreen_recursive (heap : Heap) (T : ContainerTransforms) :
    Nat → WidgetId → Point → Option Point
  | 0, w, p =>
    match (heap w).parent_widget_ with
    | none => some p
    | some _ => none
  | fuel + 1, w, p =>
    match (heap w).parent_widget_ with
    | none => some p
    | some c => WidgetPointToScreen_recursive heap T fuel c (T.TransformPointFromChild c w p)

/-- The heap with the `selected_` flag of the widget at `r` replaced by `flag`
and everything else as it was. -/
def setSelectedFlag (heap : Heap) (r : WidgetId) (flag : Bool) : Heap := fun x =>
  if x = r then { heap x with selected_ := flag } else heap x

/-! ## A concrete three-level hierarchy

Widget `0` is a leaf inside container `1`, which is inside the root container
`2`; every other address is a detached widget. Container `1` places its child at
offset `(1, 1)`; container `2` shows its child at twice the size. -/

/-- A widget with the given links and flag and nothing else set. -/
def plainWidget (parent owner : Option WidgetId) (selected : Bool) : Widget :=
  { selected_ := selected
    parent_widget_ := parent
    owner_widget_ := owner
    depth_range_min_ := 0
    depth_range_max_ := 1
    on_select_call_ := none
    on_delete_calls_ := [] }

/-- The heap of the three-level hierarchy `0 → 1 → 2`. -/
def chainHeap : Heap := fun i =>
  match i with
  | 0 => plainWidget (some 1) none true
  | 1 => plainWidget (some 2) none false
  | _ => plainWidget none none true

/-- Container `1` translates by `(1, 1)`, every other container scales by `2`. -/
def shiftScale : ContainerTransforms :=
  { TransformPointToChild := fun c _ p =>
      if c = 1 then (p.1 - 1, p.2 - 1) else (p.1 / 2, p.2 / 2)
    TransformPointFromChild := fun c _ p =>
      if c = 1 then (p.1 + 1, p.2 + 1) else (2 * p.1, 2 * p.2) }

/-- A `g_ui` whose root widget is container `2`. -/
def chainUI : UI :=
  { root_widget := some 2, screen_root_widget := none, overlay_root_widget := none }

/-- An unselected widget with select call `7` and delete calls `10, 11`. -/
def scriptedWidget : Widget :=
  { selected_ := false
    parent_widget_ := none
    owner_widget_ := none
    depth_range_min_ := 0
    depth_range_max_ := 1
    on_select_call_ := some 7
    on_delete_calls_ := [10, 11] }

/-- A `SelectWidget` that marks the argument as selected. -/
def markSelected : SelectWidgetBehaviour := fun _ w heap x =>
  if x = w then { heap x with selected_ := true } else heap x

/-- A `g_ui` whose screen root is container `2` and whose overlay root is
container `1`. -/
def stackUI : UI :=
  { root_widget := some 2, screen_root_widget := some 2, overlay_root_widget := some 1 }

/-- Containers whose two maps are not inverse to each other: into a child
nothing is done, out of a child the point moves by `(1, 0)`. -/
def driftingTransforms : ContainerTransforms :=
  { TransformPointToChild := fun _ _ p => p
    TransformPointFromChild := fun _ _ p => (p.1 + 1, p.2) }

/-- Two selected widgets without a parent that name each other as owner:
widget `0` is owned by `1` and every other widget by `0`. -/
def ownerLoopHeap : Heap := fun i =>
  plainWidget none (some (if i = 0 then 1 else 0)) true

/-- A `SelectWidget` by which the container also detaches itself from its own
parent. -/
def detachingSelect : SelectWidgetBehaviour := fun c _ heap x =>
  if x = c then { heap x with parent_widget_ := none } else heap x

/-- The hierarchy `0 → 1 → 2` with every widget selected. -/
def selectedChainHeap : Heap := fun i =>
  match i with
  | 0 => plainWidget (some 1) none true
  | 1 => plainWidget (some 2) none true
  | _ => plainWidget none none true

/-! ## Depth range -/

theorem SetDepthRange_ok (this : Widget) (lo hi : ℚ)
    (h : 0 ≤ lo ∧ lo ≤ hi ∧ hi ≤ 1) :
    SetDepthRange this lo hi
      = Except.ok { this with depth_range_min_ := lo, depth_range_max_ := hi } := by
  obtain ⟨h0, h1, h2⟩ := h
  have hlo : lo ≥ 0 ∧ lo ≤ 1 := ⟨h0, le_trans h1 h2⟩
  have hhi : hi ≥ lo ∧ hi ≤ 1 := ⟨h1, h2⟩
  simp only [SetDepthRange, BA_PRECONDITION, hlo, hhi, and_self, decide_True, if_true]
  rfl

theorem SetDepthRange_error (this : Widget) (lo hi : ℚ)
    (h : ¬ (0 ≤ lo ∧ lo ≤ hi ∧ hi ≤ 1)) :
    ∃ e, SetDepthRange this lo hi = Except.error e := by
  by_cases hlo : lo ≥ 0 ∧ lo ≤ 1
  · have hhi : ¬ (hi ≥ lo ∧ hi ≤ 1) := fun hh => h ⟨hlo.1, hh.1, hh.2⟩
    refine ⟨PreconditionFailure.max_depth_out_of_range, ?_⟩
    simp only [SetDepthRange, BA_PRECONDITION, hlo, hhi, and_self, decide_True, decide_False,
      if_true]
    rfl
  · refine ⟨PreconditionFailure.min_depth_out_of_range, ?_⟩
    simp only [SetDepthRange, BA_PRECONDITION, hlo, decide_False]
    rfl

/-- C2: `SetDepthRange(min, max)` returns normally exactly when
`0 ≤ min ≤ max ≤ 1`; every other pair leaves through the precondition failure,
in particular `(0.2, 0.1)`, `(-0.1, 0.5)` and `(0.2, 1.1)`; and a normal return
stores exactly `(min, max)` and touches no other member. -/
theorem C2_SetDepthRange_precondition (this : Widget) (lo hi : ℚ) :
    (succeeded (SetDepthRange this lo hi) = true ↔ (0 ≤ lo ∧ lo ≤ hi ∧ hi ≤ 1))
    ∧ (((0 ≤ lo ∧ lo ≤ hi ∧ hi ≤ 1)
          ∧ SetDepthRange this lo hi
              = Except.ok { this with depth_range_min_ := lo, depth_range_max_ := hi })
        ∨ (¬ (0 ≤ lo ∧ lo ≤ hi ∧ hi ≤ 1)
          ∧ ∃ e, SetDepthRange this lo hi = Except.error e))
    ∧ (∃ e, SetDepthRange this (2 / 10) (1 / 10) = Except.error e)
    ∧ (∃ e, SetDepthRange this (-1 / 10) (5 / 10) = Except.error e)
    ∧ (∃ e, SetDepthRange this (2 / 10) (11 / 10) = Except.error e) := by
  refine ⟨⟨?_, ?_⟩, ?_, ?_, ?_, ?_⟩
  · intro hs
    by_contra hn
    obtain ⟨e, he⟩ := SetDepthRange_error this lo hi hn
    rw [he] at hs
    exact Bool.false_ne_true hs
  · intro h
    rw [SetDepthRange_ok this lo hi h]; rfl
  · by_cases h : 0 ≤ lo ∧ lo ≤ hi ∧ hi ≤ 1
    · exact Or.inl ⟨h, SetDepthRange_ok this lo hi h⟩
    · exact Or.inr ⟨h, SetDepthRange_error this lo hi h⟩
  · exact SetDepthRange_error this _ _ (by norm_num)
  · exact SetDepthRange_error this _ _ (by norm_num)
  · exact SetDepthRange_error this _ _ (by norm_num)

/-! ## Owner link -/

/-- C4: `GetOwnerWidget` returns `parent_widget_` whenever a parent is set,
whatever the owner link holds, and returns `owner_widget_` (possibly null)
exactly when the parent is absent. -/
theorem C4_GetOwnerWidget_parent_precedence (this : Widget) :
    ((∃ parent, this.parent_widget_ = some parent ∧ GetOwnerWidget this = some parent)
      ∨ (this.parent_widget_ = none ∧ GetOwnerWidget this = this.owner_widget_))
    ∧ (∀ parent owner : WidgetId,
        GetOwnerWidget { this with parent_widget_ := some parent, owner_widget_ := some owner }
          = some parent)
    ∧ (∀ owner : Option WidgetId,
        GetOwnerWidget { this with parent_widget_ := none, owner_widget_ := owner } = owner) := by
  refine ⟨?_, fun _ _ => rfl, fun _ => rfl⟩
  cases h : this.parent_widget_ with
  | none => exact Or.inr ⟨rfl, by simp [GetOwnerWidget, h]⟩
  | some parent => exact Or.inl ⟨parent, rfl, by simp [GetOwnerWidget, h]⟩

/-! ## The index loops of the coordinate maps -/

theorem foldl_range'_one {α : Type} (g : α → Nat → α) (n : Nat) (p : α) :
    (List.range' 1 n).foldl g p = (List.range n).foldl (fun q j => g q (j + 1)) p := by
  rw [List.range'_eq_map_range, List.foldl_map]
  simp only [Nat.add_comm 1]

theorem foldl_range_succ {α : Type} (g : α → Nat → α) (n : Nat) (p : α) :
    (List.range (n + 1)).foldl g p
      = (List.range n).foldl (fun q j => g q (j + 1)) (g p 0) := by
  rw [List.range_succ_eq_map, List.foldl_cons, List.foldl_map]

theorem foldr_range_succ {α : Type} (g : Nat → α → α) (n : Nat) (p : α) :
    (List.range (n + 1)).foldr g p
      = g 0 ((List.range n).foldr (fun j q => g (j + 1) q) p) := by
  rw [List.range_succ_eq_map, List.foldr_cons, List.foldr_map]

/-- The `for (i = 1; i < size; i++)` loop of `WidgetPointToScreen` on the
vector `a :: rest` composes the from-child maps innermost first. -/
theorem fromChild_loop (T : ContainerTransforms) (rest : List WidgetId) :
    ∀ (a : WidgetId) (p : Point),
      (List.range' 1 rest.length).foldl
        (fun q i => T.TransformPointFromChild ((a :: rest).getD i 0)
          ((a :: rest).getD (i - 1) 0) q) p
      = fromChildInnermostFirst T a rest p := by
  induction rest with
  | nil => intro a p; rfl
  | cons b rest ih =>
    intro a p
    have h := ih b (T.TransformPointFromChild b a p)
    rw [foldl_range'_one] at h ⊢
    rw [List.length_cons, foldl_range_succ]
    simp only [Nat.add_sub_cancel, List.getD_cons_succ, List.getD_cons_zero,
      fromChildInnermostFirst] at h ⊢
    exact h

/-- The `for (i = size - 1; i > 0; i--)` loop of `ScreenPointToWidget` on the
vector `a :: rest` composes the to-child maps outermost first. -/
theorem toChild_loop (T : ContainerTransforms) (rest : List WidgetId) :
    ∀ (a : WidgetId) (p : Point),
      (List.range' 1 rest.length).reverse.foldl
        (fun q i => T.TransformPointToChild ((a :: rest).getD i 0)
          ((a :: rest).getD (i - 1) 0) q) p
      = toChildOutermostFirst T a rest p := by
  induction rest with
  | nil => intro a p; rfl
  | cons b rest ih =>
    intro a p
    have h := ih b p
    rw [List.foldl_reverse, List.range'_eq_map_range, List.foldr_map] at h ⊢
    rw [List.length_cons, foldr_range_succ]
    simp only [Nat.add_comm 1, Nat.add_sub_cancel, List.getD_cons_succ, List.getD_cons_zero,
      toChildOutermostFirst, Nat.zero_add] at h ⊢
    rw [h]
    rfl

theorem collectParents_some_cons (heap : Heap) (fuel : Nat) (w : WidgetId)
    (chain : List WidgetId) (h : collectParents heap fuel (some w) = some chain) :
    ∃ rest, chain = w :: rest := by
  cases fuel with
  | zero => simp [collectParents] at h
  | succ n =>
    simp only [collectParents] at h
    cases hc : collectParents heap n (heap w).parent_widget_ with
    | none => simp [hc] at h
    | some rest =>
      simp only [hc, Option.some.injEq] at h
      exact ⟨rest, h.symm⟩

/-- More fuel does not change what the parent walk collects. -/
theorem collectParents_mono (heap : Heap) :
    ∀ (fuel fuel' : Nat) (start : Option WidgetId) (chain : List WidgetId),
      fuel ≤ fuel' → collectParents heap fuel start = some chain →
      collectParents heap fuel' start = some chain := by
  intro fuel
  induction fuel with
  | zero =>
    intro fuel' start chain _ h
    cases start with
    | none =>
      cases fuel' <;> simpa [collectParents] using h
    | some w => simp [collectParents] at h
  | succ n ih =>
    intro fuel' start chain hle h
    cases start with
    | none =>
      cases fuel' <;> simpa [collectParents] using h
    | some w =>
      obtain ⟨m, rfl⟩ : ∃ m, fuel' = m + 1 := ⟨fuel' - 1, by omega⟩
      simp only [collectParents] at h ⊢
      cases hc : collectParents heap n (heap w).parent_widget_ with
      | none => simp [hc] at h
      | some rest =>
        rw [ih m _ rest (by omega) hc]
        simpa [hc] using h

/-- Closed form of `WidgetPointToScreen` on a widget whose parent walk ends. -/
theorem WidgetPointToScreen_eq (heap : Heap) (T : ContainerTransforms) (fuel : Nat)
    (this : WidgetId) (chain : List WidgetId) (p : Point)
    (hchain : collectParents heap fuel (heap this).parent_widget_ = some chain) :
    WidgetPointToScreen heap T fuel this p = some (fromChildInnermostFirst T this chain p) := by
  unfold WidgetPointToScreen
  cases hp : (heap this).parent_widget_ with
  | none =>
    rw [hp] at hchain
    have : chain = [] := by
      cases fuel <;> simpa [collectParents] using hchain.symm
    subst this
    rfl
  | some w =>
    rw [hp] at hchain
    obtain ⟨rest, rfl⟩ := collectParents_some_cons heap fuel w chain hchain
    simp only [hchain, List.getD_cons_zero, List.length_cons, Nat.add_sub_cancel]
    rw [fromChild_loop T rest w]
    rfl

/-- Closed form of the transform part of `ScreenPointToWidget`. -/
theorem ScreenPointToWidget_transform_eq (heap : Heap) (T : ContainerTransforms) (fuel : Nat)
    (this : WidgetId) (chain : List WidgetId) (p : Point)
    (hchain : collectParents heap fuel (heap this).parent_widget_ = some chain) :
    ScreenPointToWidget_transform heap T fuel this p
      = some (toChildOutermostFirst T this chain p) := by
  unfold ScreenPointToWidget_transform
  cases hp : (heap this).parent_widget_ with
  | none =>
    rw [hp] at hchain
    have : chain = [] := by
      cases fuel <;> simpa [collectParents] using hchain.symm
    subst this
    rfl
  | some w =>
    rw [hp] at hchain
    obtain ⟨rest, rfl⟩ := collectParents_some_cons heap fuel w chain hchain
    simp only [hchain, List.getD_cons_zero, List.length_cons, Nat.add_sub_cancel]
    rw [toChild_loop T rest w]
    rfl

/-- The point returned by `ScreenPointToWidget` is the one its transform part
computes, in either build configuration. -/
theorem ScreenPointToWidget_point (debug_build : Bool) (heap : Heap) (T : ContainerTransforms)
    (fuel : Nat) (this : WidgetId) (chain : List WidgetId) (p : Point)
    (hchain : collectParents heap fuel (heap this).parent_widget_ = some chain) :
    (ScreenPointToWidget debug_build heap T fuel this p).map Prod.fst
      = some (toChildOutermostFirst T this chain p) := by
  unfold ScreenPointToWidget
  rw [ScreenPointToWidget_transform_eq heap T fuel this chain p hchain]
  simp only
  cases debug_build with
  | false => rfl
  | true =>
    rw [WidgetPointToScreen_eq heap T fuel this chain _ hchain]
    simp only [if_true]
    split <;> rfl

/-! ## Coordinate maps -/

theorem toChild_fromChild_cancel (T : ContainerTransforms) (chain : List WidgetId) :
    ∀ (w : WidgetId) (p : Point), MutuallyInverseAtEveryLevel T w chain →
      toChildOutermostFirst T w chain (fromChildInnermostFirst T w chain p) = p := by
  induction chain with
  | nil => intro w p _; rfl
  | cons c rest ih =>
    intro w p h
    obtain ⟨h1, _, h3⟩ := h
    simp only [toChildOutermostFirst, fromChildInnermostFirst]
    rw [ih c _ h3, h1]

theorem fromChild_toChild_cancel (T : ContainerTransforms) (chain : List WidgetId) :
    ∀ (w : WidgetId) (p : Point), MutuallyInverseAtEveryLevel T w chain →
      fromChildInnermostFirst T w chain (toChildOutermostFirst T w chain p) = p := by
  induction chain with
  | nil => intro w p _; rfl
  | cons c rest ih =>
    intro w p h
    obtain ⟨_, h2, h3⟩ := h
    simp only [toChildOutermostFirst, fromChildInnermostFirst]
    rw [h2, ih c _ h3]

theorem shiftScale_inverse (w : WidgetId) (chain : List WidgetId) :
    MutuallyInverseAtEveryLevel shiftScale w chain := by
  induction chain generalizing w with
  | nil => trivial
  | cons c rest ih =>
    refine ⟨?_, ?_, ih c⟩
    · intro p
      by_cases hc : c = 1 <;> simp [shiftScale, hc]
    · intro p
      by_cases hc : c = 1
      · simp [shiftScale, hc]
      · simp only [shiftScale, hc, if_false]
        exact Prod.ext (show 2 * (p.1 / 2) = p.1 by ring) (show 2 * (p.2 / 2) = p.2 by ring)

theorem chainHeap_parents : collectParents chainHeap 2 (chainHeap 0).parent_widget_
    = some [1, 2] := by
  simp [collectParents, chainHeap, plainWidget]

/-- C1: on a widget whose parent walk ends (a finite chain of any depth,
depth zero included), if at every level the container's to-child and
from-child maps for that child are inverse to each other, then
`ScreenPointToWidget (WidgetPointToScreen p)` returns exactly `p`, in either
build configuration, and so lies within `0.01` of `p` on both axes. -/
theorem C1_screen_widget_round_trip (debug_build : Bool) (heap : Heap)
    (T : ContainerTransforms) (fuel : Nat) (this : WidgetId) (chain : List WidgetId)
    (p : Point)
    (hchain : collectParents heap fuel (heap this).parent_widget_ = some chain)
    (hinv : MutuallyInverseAtEveryLevel T this chain) :
    ∃ s r, WidgetPointToScreen heap T fuel this p = some s
      ∧ (ScreenPointToWidget debug_build heap T fuel this s).map Prod.fst = some r
      ∧ r = p ∧ |r.1 - p.1| ≤ 1 / 100 ∧ |r.2 - p.2| ≤ 1 / 100 := by
  refine ⟨fromChildInnermostFirst T this chain p, p,
    WidgetPointToScreen_eq heap T fuel this chain p hchain, ?_, rfl, ?_, ?_⟩
  · rw [ScreenPointToWidget_point debug_build heap T fuel this chain _ hchain,
      toChild_fromChild_cancel T chain this p hinv]
  · simp
  · simp

/-- C5: on a widget with ancestors `c1` (immediate parent), ..., `cn`
(outermost), the point returned by `ScreenPointToWidget` is
`c1.ToChild(c2.ToChild(... cn.ToChild(p, c(n-1)) ..., c1), w)`: the map of the
outermost ancestor is applied first and the map of the immediate parent into
`w` last. -/
theorem C5_ScreenPointToWidget_outermost_first (debug_build : Bool) (heap : Heap)
    (T : ContainerTransforms) (fuel : Nat) (this : WidgetId) (chain : List WidgetId)
    (p : Point)
    (hchain : collectParents heap fuel (heap this).parent_widget_ = some chain) :
    (ScreenPointToWidget debug_build heap T fuel this p).map Prod.fst
        = some (toChildOutermostFirst T this chain p)
    ∧ ScreenPointToWidget_transform heap T fuel this p
        = some (toChildOutermostFirst T this chain p) :=
  ⟨ScreenPointToWidget_point debug_build heap T fuel this chain p hchain,
   ScreenPointToWidget_transform_eq heap T fuel this chain p hchain⟩

/-- C6 as amended: on a widget with at least one ancestor, `WidgetPointToScreen`
applies the from-child maps starting at the immediate parent and working
outward: the map of the immediate parent (for `w`) is applied to the input
first and the map of the outermost ancestor last. -/
theorem C6_WidgetPointToScreen_innermost_first (heap : Heap) (T : ContainerTransforms)
    (fuel : Nat) (this c1 : WidgetId) (rest : List WidgetId) (p : Point)
    (hchain : collectParents heap fuel (heap this).parent_widget_ = some (c1 :: rest)) :
    WidgetPointToScreen heap T fuel this p
      = some (fromChildInnermostFirst T c1 rest (T.TransformPointFromChild c1 this p)) :=
  WidgetPointToScreen_eq heap T fuel this (c1 :: rest) p hchain

/-- C7: on a widget with no parent both maps return the point unchanged, for
every fuel and in either build configuration, and the sanity test logs
nothing. -/
theorem C7_no_parent_identity (debug_build : Bool) (heap : Heap) (T : ContainerTransforms)
    (fuel : Nat) (this : WidgetId) (p : Point)
    (hroot : (heap this).parent_widget_ = none) :
    WidgetPointToScreen heap T fuel this p = some p
    ∧ ScreenPointToWidget debug_build heap T fuel this p = some (p, []) := by
  have h1 : WidgetPointToScreen heap T fuel this p = some p := by
    simp [WidgetPointToScreen, hroot]
  have h2 : ScreenPointToWidget_transform heap T fuel this p = some p := by
    simp [ScreenPointToWidget_transform, hroot]
  refine ⟨h1, ?_⟩
  unfold ScreenPointToWidget
  rw [h2]
  cases debug_build with
  | false => rfl
  | true => simp [h1]

theorem C1_screen_widget_round_trip_witness :
    collectParents chainHeap 2 (chainHeap 0).parent_widget_ = some [1, 2]
    ∧ MutuallyInverseAtEveryLevel shiftScale 0 [1, 2]
    ∧ ∃ s r, WidgetPointToScreen chainHeap shiftScale 2 0 (3, 5) = some s
      ∧ (ScreenPointToWidget true chainHeap shiftScale 2 0 s).map Prod.fst = some r
      ∧ r = (3, 5) ∧ |r.1 - (3, 5).1| ≤ 1 / 100 ∧ |r.2 - (3, 5).2| ≤ 1 / 100 :=
  ⟨chainHeap_parents, shiftScale_inverse 0 [1, 2],
   C1_screen_widget_round_trip true chainHeap shiftScale 2 0 [1, 2] (3, 5)
     chainHeap_parents (shiftScale_inverse 0 [1, 2])⟩

theorem C5_ScreenPointToWidget_outermost_first_witness :
    collectParents chainHeap 2 (chainHeap 0).parent_widget_ = some [1, 2]
    ∧ (ScreenPointToWidget true chainHeap shiftScale 2 0 (8, 12)).map Prod.fst
        = some (toChildOutermostFirst shiftScale 0 [1, 2] (8, 12))
    ∧ ScreenPointToWidget_transform chainHeap shiftScale 2 0 (8, 12)
        = some (toChildOutermostFirst shiftScale 0 [1, 2] (8, 12)) :=
  ⟨chainHeap_parents,
   C5_ScreenPointToWidget_outermost_first true chainHeap shiftScale 2 0 [1, 2] (8, 12)
     chainHeap_parents⟩

/-- C6 as stated fails on the hierarchy `0 → 1 → 2`: from `(0, 0)` the code
first adds `(1, 1)` (container `1`, the immediate parent) and then doubles
(container `2`), giving `(2, 2)`; outermost-first would double first and give
`(1, 1)`. -/
theorem C6_outermost_first_counterexample :
    collectParents chainHeap 2 (chainHeap 0).parent_widget_ = some [1, 2]
    ∧ WidgetPointToScreen chainHeap shiftScale 2 0 (0, 0) = some (2, 2)
    ∧ fromChildOutermostFirst shiftScale 0 [1, 2] (0, 0) = (1, 1)
    ∧ WidgetPointToScreen chainHeap shiftScale 2 0 (0, 0)
        ≠ some (fromChildOutermostFirst shiftScale 0 [1, 2] (0, 0)) := by
  have h1 : WidgetPointToScreen chainHeap shiftScale 2 0 (0, 0) = some (2, 2) := by
    rw [WidgetPointToScreen_eq chainHeap shiftScale 2 0 [1, 2] (0, 0) chainHeap_parents]
    simp [fromChildInnermostFirst, shiftScale]
  have h2 : fromChildOutermostFirst shiftScale 0 [1, 2] (0, 0) = (1, 1) := by
    simp [fromChildOutermostFirst, shiftScale]
  refine ⟨chainHeap_parents, h1, h2, ?_⟩
  rw [h1, h2]
  intro h
  have h' : (2 : ℚ) = 1 := congrArg Prod.fst (Option.some.inj h)
  norm_num at h'

theorem C6_WidgetPointToScreen_innermost_first_witness :
    collectParents chainHeap 2 (chainHeap 0).parent_widget_ = some (1 :: [2])
    ∧ WidgetPointToScreen chainHeap shiftScale 2 0 (0, 0)
      = some (fromChildInnermostFirst shiftScale 1 [2]
          (shiftScale.TransformPointFromChild 1 0 (0, 0))) :=
  ⟨chainHeap_parents,
   C6_WidgetPointToScreen_innermost_first chainHeap shiftScale 2 0 1 [2] (0, 0)
     chainHeap_parents⟩

theorem C7_no_parent_identity_witness :
    (chainHeap 2).parent_widget_ = none
    ∧ WidgetPointToScreen chainHeap shiftScale 0 2 (3, 5) = some (3, 5)
    ∧ ScreenPointToWidget true chainHeap shiftScale 0 2 (3, 5) = some ((3, 5), []) :=
  ⟨rfl, C7_no_parent_identity true chainHeap shiftScale 0 2 (3, 5) rfl⟩

/-! ## Hierarchy selection -/

/-- More fuel does not change the owner chain found. -/
theorem ownerChain_mono (heap : Heap) :
    ∀ (fuel fuel' : Nat) (start : Option WidgetId) (owners : List WidgetId),
      fuel ≤ fuel' → ownerChain heap fuel start = some owners →
      ownerChain heap fuel' start = some owners := by
  intro fuel
  induction fuel with
  | zero =>
    intro fuel' start owners _ h
    cases start with
    | none =>
      cases fuel' <;> simpa [ownerChain] using h
    | some w => simp [ownerChain] at h
  | succ n ih =>
    intro fuel' start owners hle h
    cases start with
    | none =>
      cases fuel' <;> simpa [ownerChain] using h
    | some w =>
      obtain ⟨m, rfl⟩ : ∃ m, fuel' = m + 1 := ⟨fuel' - 1, by omega⟩
      simp only [ownerChain] at h ⊢
      cases hc : ownerChain heap n (GetOwnerWidget (heap w)) with
      | none => simp [hc] at h
      | some rest =>
        rw [ih m _ rest (by omega) hc]
        simpa [hc] using h

/-- Closed form of `IsHierarchySelected`, with the UI created, on a widget whose
owner chain ends. -/
theorem IsHierarchySelected_eq (heap : Heap) (ui : UI) (owners : List WidgetId) :
    ∀ (fuel : Nat) (w : WidgetId),
      ownerChain heap fuel (GetOwnerWidget (heap w)) = some owners →
      IsHierarchySelected heap (some ui) (fuel + 1) w
        = some (Except.ok ((selectionPath ui w owners).all (fun x => (heap x).selected_))) := by
  induction owners with
  | nil =>
    intro fuel w h
    cases hown : GetOwnerWidget (heap w) with
    | none =>
      cases hsel : (heap w).selected_ <;>
        simp [IsHierarchySelected, selectionPath, hown, hsel]
    | some p' =>
      rw [hown] at h
      cases fuel with
      | zero => simp [ownerChain] at h
      | succ n =>
        simp only [ownerChain] at h
        cases hc : ownerChain heap n (GetOwnerWidget (heap p')) <;> simp [hc] at h
  | cons o rest ih =>
    intro fuel w h
    cases hown : GetOwnerWidget (heap w) with
    | none =>
      rw [hown] at h
      cases fuel <;> simp [ownerChain] at h
    | some p' =>
      rw [hown] at h
      cases fuel with
      | zero => simp [ownerChain] at h
      | succ n =>
        simp only [ownerChain] at h
        cases hc : ownerChain heap n (GetOwnerWidget (heap p')) with
        | none => simp [hc] at h
        | some owners' =>
          simp only [hc, Option.some.injEq, List.cons.injEq] at h
          obtain ⟨rfl, rfl⟩ := h
          have ih' := ih n p' hc
          cases hsel : (heap w).selected_ with
          | false => simp [IsHierarchySelected, selectionPath, hown, hsel]
          | true =>
            by_cases hroot : some p' = ui.root_widget
            · rw [IsHierarchySelected]
              simp only [hsel, hown, if_pos hroot, if_false, Bool.not_true, Bool.false_eq_true]
              simp [selectionPath, List.takeWhile, hroot, hsel]
            · rw [IsHierarchySelected]
              simp only [hsel, hown, hroot, if_false, Bool.not_true, Bool.false_eq_true]
              rw [ih']
              simp [selectionPath, List.takeWhile, hroot, hsel]

/-- What `IsHierarchySelected` does before the UI is created: an unselected
widget gives false, a selected widget with a null owner gives true, and a
selected widget with an owner has the null `g_ui` dereferenced. -/
theorem IsHierarchySelected_null_ui (heap : Heap) (fuel : Nat) (w : WidgetId) :
    IsHierarchySelected heap none (fuel + 1) w
      = if (heap w).selected_ = false then some (Except.ok false)
        else
          match GetOwnerWidget (heap w) with
          | none => some (Except.ok true)
          | some _ => some (Except.error Fault.null_g_ui_dereferenced) := by
  rw [IsHierarchySelected]
  cases hsel : (heap w).selected_ <;> cases hown : GetOwnerWidget (heap w) <;> simp

theorem chainHeap_owners :
    ownerChain chainHeap 2 (GetOwnerWidget (chainHeap 0)) = some [1, 2] := by
  simp [ownerChain, GetOwnerWidget, chainHeap, plainWidget]

theorem selectedChainHeap_owners :
    ownerChain selectedChainHeap 2 (GetOwnerWidget (selectedChainHeap 0)) = some [1, 2] := by
  simp [ownerChain, GetOwnerWidget, selectedChainHeap, plainWidget]

/-- With the UI created, on a widget `w` whose `GetOwnerWidget` chain ends,
`IsHierarchySelected` returns, and returns true exactly when every node on the
path from `w` upward through `GetOwnerWidget` (`w` included), up to but not
including the root widget, is selected; in particular on a chain
`w → middle → root` with `middle` unselected it returns false whatever the
flags of `w` and `root`. -/
theorem IsHierarchySelected_iff_path_selected (heap : Heap) (ui : UI) (fuel : Nat)
    (w : WidgetId) (owners : List WidgetId)
    (hchain : ownerChain heap fuel (GetOwnerWidget (heap w)) = some owners) :
    (∃ b, IsHierarchySelected heap (some ui) (fuel + 1) w = some (Except.ok b)
      ∧ (b = true ↔ ∀ x ∈ selectionPath ui w owners, (heap x).selected_ = true))
    ∧ (∀ middle root rest, owners = middle :: root :: rest →
        ui.root_widget = some root → middle ≠ root → (heap middle).selected_ = false →
        IsHierarchySelected heap (some ui) (fuel + 1) w = some (Except.ok false)) := by
  have heq := IsHierarchySelected_eq heap ui owners fuel w hchain
  refine ⟨⟨_, heq, ?_⟩, ?_⟩
  · rw [List.all_eq_true]
  · intro middle root rest ho hr hne hsel
    rw [heq]
    have hmem : middle ∈ selectionPath ui w owners := by
      have hne' : some middle ≠ ui.root_widget := by
        rw [hr]
        exact fun h => hne (Option.some.inj h)
      simp [selectionPath, ho, List.takeWhile, hne']
    have : (selectionPath ui w owners).all (fun x => (heap x).selected_) = false := by
      rw [List.all_eq_false]
      exact ⟨middle, hmem, by simp [hsel]⟩
    rw [this]

/-- C3 at the failing input: on the hierarchy `0 → 1 → 2` with every widget
selected, every node on the path from widget `0` is selected, and with the UI
created `IsHierarchySelected` returns true; called before the UI is created it
evaluates `g_ui->root_widget()` on the null `g_ui` and returns nothing, where
`IsInMainStack`, which tests `g_ui` first, returns. -/
theorem C3_IsHierarchySelected_null_ui_fault (fuel : Nat) :
    ownerChain selectedChainHeap 2 (GetOwnerWidget (selectedChainHeap 0)) = some [1, 2]
    ∧ (∀ x ∈ selectionPath chainUI 0 [1, 2], (selectedChainHeap x).selected_ = true)
    ∧ IsHierarchySelected selectedChainHeap (some chainUI) 3 0 = some (Except.ok true)
    ∧ IsHierarchySelected selectedChainHeap none (fuel + 1) 0
        = some (Except.error Fault.null_g_ui_dereferenced)
    ∧ IsHierarchySelected selectedChainHeap none (fuel + 1) 0 ≠ some (Except.ok true)
    ∧ IsInMainStack selectedChainHeap none fuel 0 = some false := by
  have hnull : IsHierarchySelected selectedChainHeap none (fuel + 1) 0
      = some (Except.error Fault.null_g_ui_dereferenced) := by
    rw [IsHierarchySelected_null_ui]
    simp [selectedChainHeap, plainWidget, GetOwnerWidget]
  have hpath : ∀ x ∈ selectionPath chainUI 0 [1, 2], (selectedChainHeap x).selected_ = true := by
    intro x hx
    simp [selectionPath, chainUI, List.takeWhile] at hx
    rcases hx with rfl | rfl <;> rfl
  refine ⟨selectedChainHeap_owners, hpath, ?_, hnull, ?_, rfl⟩
  · rw [IsHierarchySelected_eq selectedChainHeap chainUI [1, 2] 2 0 selectedChainHeap_owners]
    have : (selectionPath chainUI 0 [1, 2]).all (fun x => (selectedChainHeap x).selected_)
        = true := by
      rw [List.all_eq_true]
      exact hpath
    rw [this]
  · rw [hnull]
    intro h
    cases Option.some.inj h

/-! ## Delete calls -/

/-- C9: `SetSelected(s, cause)` with `s` equal to the current flag changes
nothing: the widget is as before and the queue of deferred calls is as before,
also when `s` is true and a select call is registered. -/
theorem C9_SetSelected_unchanged_noop {SelectionCause : Type} (this : Widget)
    (cause : SelectionCause) (g_logic : Logic) (call : CallRef) :
    SetSelected this this.selected_ cause g_logic = (this, g_logic)
    ∧ SetSelected { this with selected_ := true, on_select_call_ := some call } true cause
        g_logic
      = ({ this with selected_ := true, on_select_call_ := some call }, g_logic) := by
  constructor <;> simp [SetSelected]

theorem callsRunByDrain_push (alive : CallRef → Bool) (g_logic : Logic) (call : CallRef) :
    callsRunByDrain alive (PushPythonWeakCall g_logic call)
      = callsRunByDrain alive g_logic ++ (if alive call then [call] else []) := by
  simp only [callsRunByDrain, PushPythonWeakCall, List.filter_append]
  cases h : alive call <;> simp [List.filter, h]

/-- C10: on an unselected widget with a registered select call,
`SetSelected(true)` sets the flag, runs nothing within the call, and puts
exactly one weak reference to the select call at the back of the queue. The
next drain therefore runs what it would have run before, followed by the select
call once if its target is alive at the drain, and by nothing if the target was
destroyed; with no reference to it pending beforehand the drain runs it exactly
once, respectively not at all. A transition to unselected, and a transition on
a widget without a select call, push nothing. -/
theorem C10_SetSelected_defers_select_call {SelectionCause : Type} (this : Widget)
    (cause : SelectionCause) (g_logic : Logic) (call : CallRef) (alive : CallRef → Bool)
    (hunselected : this.selected_ = false) (hcall : this.on_select_call_ = some call) :
    (SetSelected this true cause g_logic).1 = { this with selected_ := true }
    ∧ (SetSelected this true cause g_logic).2.ran = g_logic.ran
    ∧ (SetSelected this true cause g_logic).2.weak_calls = g_logic.weak_calls ++ [call]
    ∧ callsRunByDrain alive (SetSelected this true cause g_logic).2
        = callsRunByDrain alive g_logic ++ (if alive call then [call] else [])
    ∧ (drainWeakCalls alive (SetSelected this true cause g_logic).2).ran
        = (drainWeakCalls alive g_logic).ran ++ (if alive call then [call] else [])
    ∧ (call ∉ g_logic.weak_calls →
        (callsRunByDrain alive (SetSelected this true cause g_logic).2).count call
          = if alive call then 1 else 0)
    ∧ (alive call = false →
        (callsRunByDrain alive (SetSelected this true cause g_logic).2).count call = 0)
    ∧ (SetSelected { this with selected_ := true } false cause g_logic).2 = g_logic
    ∧ (∀ s, (SetSelected { this with on_select_call_ := none } s cause g_logic).2 = g_logic) := by
  have hset : SetSelected this true cause g_logic
      = ({ this with selected_ := true }, PushPythonWeakCall g_logic call) := by
    simp [SetSelected, hunselected, hcall]
  have hrun := callsRunByDrain_push alive g_logic call
  refine ⟨by rw [hset], by rw [hset]; rfl, by rw [hset]; rfl, by rw [hset]; exact hrun,
    ?_, ?_, ?_, ?_, ?_⟩
  · rw [hset]
    simp only [drainWeakCalls, hrun, List.append_assoc]
    rfl
  · intro hnot
    rw [hset, hrun]
    have h0 : (callsRunByDrain alive g_logic).count call = 0 := by
      rw [List.count_eq_zero]
      intro hmem
      exact hnot (List.mem_of_mem_filter hmem)
    cases h : alive call <;> simp [h0]
  · intro hdead
    rw [hset, List.count_eq_zero]
    intro hmem
    have := List.of_mem_filter hmem
    rw [hdead] at this
    exact Bool.false_ne_true this
  · simp [SetSelected]
  · intro s
    cases s <;> cases hs : this.selected_ <;> simp [SetSelected, hs]

theorem C10_SetSelected_defers_select_call_witness :
    scriptedWidget.selected_ = false ∧ scriptedWidget.on_select_call_ = some 7
    ∧ (SetSelected scriptedWidget true () { weak_calls := [3], ran := [] }).2.ran = []
    ∧ (SetSelected scriptedWidget true () { weak_calls := [3], ran := [] }).2.weak_calls
        = [3] ++ [7]
    ∧ (drainWeakCalls (fun _ => true)
          (SetSelected scriptedWidget true () { weak_calls := [3], ran := [] }).2).ran
        = (drainWeakCalls (fun _ => true) { weak_calls := [3], ran := [] }).ran
          ++ (if (fun _ => true) 7 then [7] else []) :=
  ⟨rfl, rfl,
   (C10_SetSelected_defers_select_call scriptedWidget () { weak_calls := [3], ran := [] } 7
     (fun _ => true) rfl rfl).2.1,
   (C10_SetSelected_defers_select_call scriptedWidget () { weak_calls := [3], ran := [] } 7
     (fun _ => true) rfl rfl).2.2.1,
   (C10_SetSelected_defers_select_call scriptedWidget () { weak_calls := [3], ran := [] } 7
     (fun _ => true) rfl rfl).2.2.2.2.1⟩

/-! ## Global selection -/

/-- The parent walk reads nothing but the parent links. -/
theorem collectParents_congr (heap heap' : Heap)
    (hlinks : ∀ x, (heap' x).parent_widget_ = (heap x).parent_widget_) :
    ∀ (fuel : Nat) (start : Option WidgetId),
      collectParents heap' fuel start = collectParents heap fuel start := by
  intro fuel
  induction fuel with
  | zero => intro start; cases start <;> rfl
  | succ n ih =>
    intro start
    cases start with
    | none => rfl
    | some w => simp only [collectParents, hlinks, ih]

theorem collectParents_succ_cons (heap : Heap) (fuel : Nat) (c : WidgetId)
    (rest : List WidgetId) (h : collectParents heap fuel (some c) = some (c :: rest)) :
    ∃ n, fuel = n + 1 ∧ collectParents heap n (heap c).parent_widget_ = some rest := by
  cases fuel with
  | zero => simp [collectParents] at h
  | succ n =>
    refine ⟨n, rfl, ?_⟩
    simp only [collectParents] at h
    cases hc : collectParents heap n (heap c).parent_widget_ with
    | none => simp [hc] at h
    | some rest' =>
      simp only [hc, Option.some.injEq, List.cons.injEq, true_and] at h
      rw [h]

theorem collectParents_nil (heap : Heap) (fuel : Nat) (start : Option WidgetId)
    (h : collectParents heap fuel start = some []) : start = none := by
  cases start with
  | none => rfl
  | some w =>
    obtain ⟨rest, hrest⟩ := collectParents_some_cons heap fuel w [] h
    cases hrest

theorem collectParents_cons (heap : Heap) (fuel : Nat) (start : Option WidgetId)
    (c : WidgetId) (rest : List WidgetId)
    (h : collectParents heap fuel start = some (c :: rest)) : start = some c := by
  cases start with
  | none => cases fuel <;> simp [collectParents] at h
  | some w =>
    obtain ⟨rest', hrest⟩ := collectParents_some_cons heap fuel w (c :: rest) h
    simp only [List.cons.injEq] at hrest
    rw [hrest.1]

/-- The loop of `GlobalSelect` on a container whose parent walk ends: the calls
made and the heap they leave. -/
theorem GlobalSelect_loop_calls (SelectWidget : SelectWidgetBehaviour)
    (hkeep : KeepsParentLinks SelectWidget) (rest : List WidgetId) :
    ∀ (fuel : Nat) (heap : Heap) (w c : WidgetId) (calls : List (WidgetId × WidgetId)),
      collectParents heap fuel (some c) = some (c :: rest) →
      GlobalSelect_loop SelectWidget fuel heap w c calls
        = some (applySelectCalls SelectWidget (selectCallsUpward w (c :: rest)) heap,
            calls ++ selectCallsUpward w (c :: rest)) := by
  induction rest with
  | nil =>
    intro fuel heap w c calls h
    obtain ⟨n, rfl, hn⟩ := collectParents_succ_cons heap fuel c [] h
    have hnone := collectParents_nil heap n _ hn
    simp only [GlobalSelect_loop, hkeep c w heap c, hnone, selectCallsUpward,
      applySelectCalls]
  | cons c' rest ih =>
    intro fuel heap w c calls h
    obtain ⟨n, rfl, hn⟩ := collectParents_succ_cons heap fuel c (c' :: rest) h
    have hsome := collectParents_cons heap n _ c' rest hn
    rw [hsome] at hn
    have hn' : collectParents (SelectWidget c w heap) n (some c') = some (c' :: rest) := by
      rw [collectParents_congr heap (SelectWidget c w heap) (fun x => hkeep c w heap x)]
      exact hn
    have hloop := ih n (SelectWidget c w heap) c c' (calls ++ [(c, w)]) hn'
    rw [GlobalSelect_loop]
    simp only [hkeep c w heap c, hsome, hloop]
    simp only [selectCallsUpward, applySelectCalls, List.append_assoc, List.singleton_append]

theorem selectCallsUpward_length (w : WidgetId) (chain : List WidgetId) :
    (selectCallsUpward w chain).length = chain.length := by
  induction chain generalizing w with
  | nil => rfl
  | cons c rest ih => simp [selectCallsUpward, ih]

theorem markSelected_keeps : KeepsParentLinks markSelected := by
  intro c w heap x
  by_cases hx : x = w <;> simp [markSelected, hx]

/-- C11 as stated fails: on the hierarchy `0 → 1 → 2`, whose parent chain from
widget `0` is `[1, 2]`, with a `SelectWidget` by which the container detaches
itself from its parent, `GlobalSelect` makes the call `1.SelectWidget(0)`,
re-reads the parent of `1`, finds it null and stops: one call, not the two
calls `1.SelectWidget(0), 2.SelectWidget(1)`. -/
theorem C11_reparenting_select_counterexample :
    collectParents chainHeap 2 (chainHeap 0).parent_widget_ = some [1, 2]
    ∧ selectCallsUpward 0 [1, 2] = [(1, 0), (2, 1)]
    ∧ (GlobalSelect detachingSelect 2 chainHeap 0).map Prod.snd = some [(1, 0)]
    ∧ (GlobalSelect detachingSelect 2 chainHeap 0).map Prod.snd
        ≠ some (selectCallsUpward 0 [1, 2]) := by
  have h : (GlobalSelect detachingSelect 2 chainHeap 0).map Prod.snd = some [(1, 0)] := by
    simp [GlobalSelect, GlobalSelect_loop, chainHeap, plainWidget, detachingSelect]
  refine ⟨chainHeap_parents, rfl, h, ?_⟩
  rw [h]
  intro hh
  have hlen := congrArg (fun o => o.map List.length) hh
  simp [selectCallsUpward] at hlen

/-- C11 as amended: with a `SelectWidget` that leaves the parent links as they
are, on a widget `w` with parent chain `c1` (immediate parent), ..., `cn`
(root), `GlobalSelect` returns after making exactly the calls
`c1.SelectWidget(w), c2.SelectWidget(c1), ..., cn.SelectWidget(c(n-1))`, in
that order, `n` calls in all, each on the heap the previous call left, and
the heap it leaves is the one the last call left; on a widget with no parent
it makes no call and changes nothing, also when `owner_widget_` is set. -/
theorem C11_GlobalSelect_calls (SelectWidget : SelectWidgetBehaviour) (fuel : Nat)
    (heap : Heap) (this : WidgetId) (chain : List WidgetId)
    (hkeep : KeepsParentLinks SelectWidget)
    (hchain : collectParents heap fuel (heap this).parent_widget_ = some chain) :
    GlobalSelect SelectWidget fuel heap this
        = some (applySelectCalls SelectWidget (selectCallsUpward this chain) heap,
            selectCallsUpward this chain)
    ∧ (selectCallsUpward this chain).length = chain.length
    ∧ (∀ (heap0 : Heap) (n : Nat), (heap0 this).parent_widget_ = none →
        GlobalSelect SelectWidget n heap0 this = some (heap0, [])) := by
  refine ⟨?_, selectCallsUpward_length this chain, ?_⟩
  · unfold GlobalSelect
    cases hp : (heap this).parent_widget_ with
    | none =>
      rw [hp] at hchain
      have : chain = [] := by
        cases fuel <;> simpa [collectParents] using hchain.symm
      subst this
      rfl
    | some c =>
      rw [hp] at hchain
      obtain ⟨rest, rfl⟩ := collectParents_some_cons heap fuel c chain hchain
      have hloop := GlobalSelect_loop_calls SelectWidget hkeep rest fuel heap this c [] hchain
      simp only [hloop, List.nil_append]
  · intro heap0 n h0
    simp [GlobalSelect, h0]

/-- On the hierarchy `0 → 1 → 2` with a `SelectWidget` that marks its argument
selected: the two calls are made, and widget `1`, unselected before, is
selected in the heap `GlobalSelect` leaves. -/
theorem C11_GlobalSelect_calls_witness :
    KeepsParentLinks markSelected
    ∧ collectParents chainHeap 2 (chainHeap 0).parent_widget_ = some [1, 2]
    ∧ GlobalSelect markSelected 2 chainHeap 0
        = some (applySelectCalls markSelected [(1, 0), (2, 1)] chainHeap, [(1, 0), (2, 1)])
    ∧ (chainHeap 1).selected_ = false
    ∧ (applySelectCalls markSelected [(1, 0), (2, 1)] chainHeap 1).selected_ = true
    ∧ GlobalSelect markSelected 0 (fun _ => plainWidget none (some 1) false) 0
        = some ((fun _ => plainWidget none (some 1) false), []) :=
  ⟨markSelected_keeps, chainHeap_parents,
   (C11_GlobalSelect_calls markSelected 2 chainHeap 0 [1, 2] markSelected_keeps
     chainHeap_parents).1,
   rfl, rfl,
   (C11_GlobalSelect_calls markSelected 2 chainHeap 0 [1, 2] markSelected_keeps
     chainHeap_parents).2.2 (fun _ => plainWidget none (some 1) false) 0 rfl⟩

/-! ## Main stack and overlay stack -/

theorem searchAncestors_true (heap : Heap) (root : Option WidgetId) :
    ∀ (fuel : Nat) (start : Option WidgetId),
      searchAncestors heap root fuel start = some true →
      ∃ r n, root = some r ∧ ancestorAt heap n start = some r := by
  intro fuel
  induction fuel with
  | zero =>
    intro start h
    cases start <;> simp [searchAncestors] at h
  | succ k ih =>
    intro start h
    cases start with
    | none => simp [searchAncestors] at h
    | some parent =>
      by_cases hr : some parent = root
      · exact ⟨parent, 0, hr.symm, rfl⟩
      · simp only [searchAncestors, hr, if_false] at h
        obtain ⟨r, n, hroot, hn⟩ := ih _ h
        exact ⟨r, n + 1, hroot, hn⟩

theorem searchAncestors_of_ancestorAt (heap : Heap) (r : WidgetId) :
    ∀ (n : Nat) (start : Option WidgetId), ancestorAt heap n start = some r →
      searchAncestors heap (some r) (n + 1) start = some true := by
  intro n
  induction n with
  | zero =>
    intro start h
    simp only [ancestorAt] at h
    simp [h, searchAncestors]
  | succ k ih =>
    intro start h
    cases start with
    | none => simp [ancestorAt] at h
    | some parent =>
      by_cases hr : some parent = some r
      · simp [searchAncestors, hr]
      · simp only [ancestorAt] at h
        rw [searchAncestors]
        simp only [hr, if_false]
        exact ih _ h

/-- On a finite parent chain the loop returns, with `true` exactly when the
root it looks for is on the chain. -/
theorem searchAncestors_eq (heap : Heap) (root : Option WidgetId) :
    ∀ (fuel : Nat) (start : Option WidgetId) (chain : List WidgetId),
      collectParents heap fuel start = some chain →
      searchAncestors heap root fuel start
        = some (chain.any (fun c => decide (some c = root))) := by
  intro fuel
  induction fuel with
  | zero =>
    intro start chain h
    cases start with
    | none =>
      simp only [collectParents, Option.some.injEq] at h
      subst h
      rfl
    | some w => simp [collectParents] at h
  | succ k ih =>
    intro start chain h
    cases start with
    | none =>
      simp only [collectParents, Option.some.injEq] at h
      subst h
      rfl
    | some w =>
      obtain ⟨rest, rfl⟩ := collectParents_some_cons heap (k + 1) w chain h
      obtain ⟨n, hn, hrest⟩ := collectParents_succ_cons heap (k + 1) w rest h
      have hk : n = k := by omega
      subst hk
      by_cases hr : some w = root
      · simp [searchAncestors, hr]
      · rw [searchAncestors]
        simp only [hr, if_false, List.any_cons, decide_False, Bool.false_or]
        exact ih _ rest hrest

theorem mem_chain_iff_any (root : WidgetId) (chain : List WidgetId) :
    chain.any (fun c => decide (some c = some root)) = decide (root ∈ chain) := by
  rw [Bool.eq_iff_iff]
  simp

/-- C12: `IsInMainStack` returns true exactly when the UI exists, the screen
root is present, and the screen root is one of the ancestors of the widget
reached through `parent_widget_` links; it returns false when the UI does not
exist yet and when the screen root is absent; and on a widget whose parent
walk ends it returns, with true exactly when the screen root is on the
chain. -/
theorem C12_IsInMainStack_iff_ancestor (heap : Heap) (g_ui : Option UI) (this : WidgetId) :
    ((∃ fuel, IsInMainStack heap g_ui fuel this = some true)
      ↔ ∃ ui root, g_ui = some ui ∧ ui.screen_root_widget = some root
          ∧ IsAncestor heap root this)
    ∧ (∀ fuel, IsInMainStack heap none fuel this = some false)
    ∧ (∀ ui fuel, ui.screen_root_widget = none →
        IsInMainStack heap (some ui) fuel this = some false)
    ∧ (∀ ui root fuel chain, ui.screen_root_widget = some root →
        collectParents heap fuel (heap this).parent_widget_ = some chain →
        IsInMainStack heap (some ui) fuel this = some (decide (root ∈ chain))) := by
  refine ⟨⟨?_, ?_⟩, fun _ => rfl, ?_, ?_⟩
  · rintro ⟨fuel, h⟩
    cases hg : g_ui with
    | none => simp [IsInMainStack, hg] at h
    | some ui =>
      cases hs : ui.screen_root_widget with
      | none => simp [IsInMainStack, hg, hs] at h
      | some root =>
        simp only [IsInMainStack, hg, hs] at h
        obtain ⟨r, n, hr, hn⟩ := searchAncestors_true heap _ fuel _ h
        cases hr
        exact ⟨ui, root, rfl, hs, n, hn⟩
  · rintro ⟨ui, root, hg, hs, n, hn⟩
    refine ⟨n + 1, ?_⟩
    simp only [IsInMainStack, hg, hs]
    exact searchAncestors_of_ancestorAt heap root n _ hn
  · intro ui fuel hs
    simp [IsInMainStack, hs]
  · intro ui root fuel chain hs hchain
    simp only [IsInMainStack, hs]
    rw [searchAncestors_eq heap (some root) fuel _ chain hchain, mem_chain_iff_any]

theorem C12_IsInMainStack_iff_ancestor_witness :
    (∃ fuel, IsInMainStack chainHeap (some stackUI) fuel 0 = some true)
    ∧ IsInMainStack chainHeap (some stackUI) 2 0 = some (decide (2 ∈ [1, 2]))
    ∧ IsInMainStack chainHeap (some chainUI) 2 0 = some false :=
  ⟨(C12_IsInMainStack_iff_ancestor chainHeap (some stackUI) 0).1.2
     ⟨stackUI, 2, rfl, rfl, 1, rfl⟩,
   (C12_IsInMainStack_iff_ancestor chainHeap (some stackUI) 0).2.2.2 stackUI 2 2 [1, 2] rfl
     chainHeap_parents,
   (C12_IsInMainStack_iff_ancestor chainHeap (some stackUI) 0).2.2.1 chainUI 2 rfl⟩

/-- What `IsInOverlayStack` does once the UI exists: it returns true exactly
when the overlay root is an ancestor, and on a widget whose parent walk ends it
returns, with false when the overlay root is absent. -/
theorem IsInOverlayStack_initialized (heap : Heap) (ui : UI) (this : WidgetId) :
    ((∃ fuel, IsInOverlayStack heap (some ui) fuel this = Except.ok (some true))
      ↔ ∃ root, ui.overlay_root_widget = some root ∧ IsAncestor heap root this)
    ∧ (∀ fuel chain, collectParents heap fuel (heap this).parent_widget_ = some chain →
        IsInOverlayStack heap (some ui) fuel this
          = Except.ok (some (chain.any (fun c => decide (some c = ui.overlay_root_widget)))))
    ∧ (∀ fuel chain, collectParents heap fuel (heap this).parent_widget_ = some chain →
        ui.overlay_root_widget = none →
        IsInOverlayStack heap (some ui) fuel this = Except.ok (some false)) := by
  refine ⟨⟨?_, ?_⟩, ?_, ?_⟩
  · rintro ⟨fuel, h⟩
    simp only [IsInOverlayStack, Except.ok.injEq] at h
    obtain ⟨r, n, hr, hn⟩ := searchAncestors_true heap _ fuel _ h
    exact ⟨r, hr, n, hn⟩
  · rintro ⟨root, hs, n, hn⟩
    refine ⟨n + 1, ?_⟩
    simp only [IsInOverlayStack, hs]
    rw [searchAncestors_of_ancestorAt heap root n _ hn]
  · intro fuel chain hchain
    simp only [IsInOverlayStack]
    rw [searchAncestors_eq heap _ fuel _ chain hchain]
  · intro fuel chain hchain hnone
    simp only [IsInOverlayStack]
    rw [searchAncestors_eq heap _ fuel _ chain hchain, hnone]
    simp

/-- C13 at the failing input: called before the UI exists, `IsInOverlayStack`
dereferences the null `g_ui` and returns nothing, where the claim has it return
false; `IsInMainStack`, which tests `g_ui` first, returns false on the same
input. -/
theorem C13_IsInOverlayStack_null_ui_fault (heap : Heap) (fuel : Nat) (this : WidgetId) :
    IsInOverlayStack heap none fuel this = Except.error Fault.null_g_ui_dereferenced
    ∧ IsInOverlayStack heap none fuel this ≠ Except.ok (some false)
    ∧ IsInMainStack heap none fuel this = some false := by
  refine ⟨rfl, ?_, rfl⟩
  intro h
  cases h

/-! ## The sanity test of `ScreenPointToWidget` -/

/-- C14: in a debug or test build, on a widget whose parent walk ends and with
the two container maps inverse to each other at every level,
`WidgetPointToScreen (ScreenPointToWidget p)` is exactly `p`, so the sanity
test of `ScreenPointToWidget` finds no mismatch and logs nothing. -/
theorem C14_sanity_check_silent (heap : Heap) (T : ContainerTransforms) (fuel : Nat)
    (this : WidgetId) (chain : List WidgetId) (p : Point)
    (hchain : collectParents heap fuel (heap this).parent_widget_ = some chain)
    (hinv : MutuallyInverseAtEveryLevel T this chain) :
    ∃ q, ScreenPointToWidget_transform heap T fuel this p = some q
      ∧ WidgetPointToScreen heap T fuel this q = some p
      ∧ ScreenPointToWidget true heap T fuel this p = some (q, []) := by
  have h1 := ScreenPointToWidget_transform_eq heap T fuel this chain p hchain
  have h2 : WidgetPointToScreen heap T fuel this (toChildOutermostFirst T this chain p)
      = some p := by
    rw [WidgetPointToScreen_eq heap T fuel this chain _ hchain,
      fromChild_toChild_cancel T chain this p hinv]
  refine ⟨_, h1, h2, ?_⟩
  unfold ScreenPointToWidget
  rw [h1]
  simp only [if_true, h2]
  simp

theorem C14_sanity_check_silent_witness :
    collectParents chainHeap 2 (chainHeap 0).parent_widget_ = some [1, 2]
    ∧ MutuallyInverseAtEveryLevel shiftScale 0 [1, 2]
    ∧ ∃ q, ScreenPointToWidget_transform chainHeap shiftScale 2 0 (8, 12) = some q
      ∧ WidgetPointToScreen chainHeap shiftScale 2 0 q = some (8, 12)
      ∧ ScreenPointToWidget true chainHeap shiftScale 2 0 (8, 12) = some (q, []) :=
  ⟨chainHeap_parents, shiftScale_inverse 0 [1, 2],
   C14_sanity_check_silent chainHeap shiftScale 2 0 [1, 2] (8, 12) chainHeap_parents
     (shiftScale_inverse 0 [1, 2])⟩

/-! ## Depth range invariant -/

/-- C15: `SetDepthRange` preserves the depth-range invariant: from a widget that
satisfies it, the widget after the call satisfies it whether the call returned
or left through a precondition; a call that returned stored `(min, max)`, and a
call that failed left the widget, both bounds included, as it was. -/
theorem C15_SetDepthRange_preserves_invariant (this : Widget) (lo hi : ℚ)
    (hinv : DepthRangeInvariant this) :
    DepthRangeInvariant (widgetAfterSetDepthRange this lo hi)
    ∧ ((succeeded (SetDepthRange this lo hi) = true
          ∧ (widgetAfterSetDepthRange this lo hi).depth_range_min_ = lo
          ∧ (widgetAfterSetDepthRange this lo hi).depth_range_max_ = hi)
        ∨ (succeeded (SetDepthRange this lo hi) = false
          ∧ widgetAfterSetDepthRange this lo hi = this
          ∧ (widgetAfterSetDepthRange this lo hi).depth_range_min_ = this.depth_range_min_
          ∧ (widgetAfterSetDepthRange this lo hi).depth_range_max_
              = this.depth_range_max_)) := by
  by_cases h : 0 ≤ lo ∧ lo ≤ hi ∧ hi ≤ 1
  · have hok := SetDepthRange_ok this lo hi h
    have hafter : widgetAfterSetDepthRange this lo hi
        = { this with depth_range_min_ := lo, depth_range_max_ := hi } := by
      simp only [widgetAfterSetDepthRange, hok]
    refine ⟨?_, Or.inl ⟨?_, ?_, ?_⟩⟩
    · rw [hafter]
      exact h
    · rw [hok]; rfl
    · rw [hafter]
    · rw [hafter]
  · obtain ⟨e, he⟩ := SetDepthRange_error this lo hi h
    have hafter : widgetAfterSetDepthRange this lo hi = this := by
      simp only [widgetAfterSetDepthRange, he]
    refine ⟨?_, Or.inr ⟨?_, hafter, ?_, ?_⟩⟩
    · rw [hafter]
      exact hinv
    · rw [he]; rfl
    · rw [hafter]
    · rw [hafter]

theorem scriptedWidget_invariant : DepthRangeInvariant scriptedWidget := by
  simp [DepthRangeInvariant, scriptedWidget]

theorem C15_SetDepthRange_preserves_invariant_witness :
    DepthRangeInvariant scriptedWidget
    ∧ DepthRangeInvariant (widgetAfterSetDepthRange scriptedWidget (2 / 10) (1 / 10))
    ∧ DepthRangeInvariant (widgetAfterSetDepthRange scriptedWidget (1 / 4) (3 / 4)) :=
  ⟨scriptedWidget_invariant,
   (C15_SetDepthRange_preserves_invariant scriptedWidget (2 / 10) (1 / 10)
     scriptedWidget_invariant).1,
   (C15_SetDepthRange_preserves_invariant scriptedWidget (1 / 4) (3 / 4)
     scriptedWidget_invariant).1⟩

/-! ## Termination of the hierarchy walk -/

theorem ownerChain_exact (heap : Heap) :
    ∀ (fuel : Nat) (start : Option WidgetId) (owners : List WidgetId),
      ownerChain heap fuel start = some owners →
      ownerChain heap owners.length start = some owners := by
  intro fuel
  induction fuel with
  | zero =>
    intro start owners h
    cases start with
    | none =>
      simp only [ownerChain, Option.some.injEq] at h
      subst h
      rfl
    | some w => simp [ownerChain] at h
  | succ n ih =>
    intro start owners h
    cases start with
    | none =>
      simp only [ownerChain, Option.some.injEq] at h
      subst h
      rfl
    | some w =>
      simp only [ownerChain] at h
      cases hc : ownerChain heap n (GetOwnerWidget (heap w)) with
      | none => simp [hc] at h
      | some rest =>
        simp only [hc, Option.some.injEq] at h
        subst h
        simp only [List.length_cons, ownerChain, ih _ rest hc]

theorem ownerLoopHeap_never_returns :
    ∀ (fuel : Nat) (w : WidgetId),
      IsHierarchySelected ownerLoopHeap (some chainUI) fuel w = none := by
  intro fuel
  induction fuel with
  | zero => intro w; rfl
  | succ n ih =>
    intro w
    have hroot : chainUI.root_widget = some 2 := rfl
    rw [IsHierarchySelected]
    by_cases hw : w = 0
    · subst hw
      simp [ownerLoopHeap, plainWidget, GetOwnerWidget, hroot, ih]
    · simp [ownerLoopHeap, plainWidget, GetOwnerWidget, hroot, hw, ih]

theorem selectedChainHeap_tree : ParentLinksFormTree selectedChainHeap := by
  intro w
  rcases w with _ | _ | w
  · exact ⟨2, [1, 2], rfl⟩
  · exact ⟨1, [2], rfl⟩
  · exact ⟨0, [], rfl⟩

/-- C16 as stated fails in two ways. In `ownerLoopHeap` no widget has a parent,
so the parent links form a tree, yet widgets `0` and `1` own each other, both
are selected and neither is the root widget, and with the UI created
`IsHierarchySelected` on widget `0` does not return for any fuel. And on the
tree `0 → 1 → 2` with every widget selected, a call before the UI is created
ends in the dereference of the null `g_ui`, not at the root widget, a null
owner or an unselected node. -/
theorem C16_parent_tree_counterexample :
    (ParentLinksFormTree ownerLoopHeap
      ∧ GetOwnerWidget (ownerLoopHeap 0) = some 1
      ∧ GetOwnerWidget (ownerLoopHeap 1) = some 0
      ∧ ¬ ∃ fuel r, IsHierarchySelected ownerLoopHeap (some chainUI) fuel 0 = some r)
    ∧ (ParentLinksFormTree selectedChainHeap
      ∧ ∀ fuel, IsHierarchySelected selectedChainHeap none (fuel + 1) 0
          = some (Except.error Fault.null_g_ui_dereferenced)) := by
  refine ⟨⟨fun w => ⟨0, [], rfl⟩, rfl, rfl, ?_⟩, selectedChainHeap_tree, ?_⟩
  · rintro ⟨fuel, r, h⟩
    rw [ownerLoopHeap_never_returns fuel 0] at h
    cases h
  · intro fuel
    rw [IsHierarchySelected_null_ui]
    simp [selectedChainHeap, plainWidget, GetOwnerWidget]

/-- C16 as amended: with the UI created, on a widget whose chain of
`GetOwnerWidget` links (the parent, or the owner where there is no parent)
ends, `IsHierarchySelected` returns within one iteration per node of the chain
plus one, for every larger fuel too, with false when it stopped at an
unselected node and true when it reached the root widget or a null owner
first. -/
theorem C16_IsHierarchySelected_terminates (heap : Heap) (ui : UI) (fuel : Nat)
    (w : WidgetId) (owners : List WidgetId)
    (hchain : ownerChain heap fuel (GetOwnerWidget (heap w)) = some owners) :
    ∀ fuel', owners.length + 1 ≤ fuel' →
      IsHierarchySelected heap (some ui) fuel' w
        = some (Except.ok ((selectionPath ui w owners).all (fun x => (heap x).selected_))) := by
  intro fuel' hle
  obtain ⟨k, rfl⟩ : ∃ k, fuel' = k + 1 := ⟨fuel' - 1, by omega⟩
  have hk : ownerChain heap k (GetOwnerWidget (heap w)) = some owners :=
    ownerChain_mono heap owners.length k _ owners (by omega)
      (ownerChain_exact heap fuel _ owners hchain)
  exact IsHierarchySelected_eq heap ui owners k w hk

theorem C16_IsHierarchySelected_terminates_witness :
    ownerChain chainHeap 2 (GetOwnerWidget (chainHeap 0)) = some [1, 2]
    ∧ IsHierarchySelected chainHeap (some chainUI) 3 0
        = some (Except.ok
            ((selectionPath chainUI 0 [1, 2]).all (fun x => (chainHeap x).selected_)))
    ∧ IsHierarchySelected chainHeap (some chainUI) 10 0
        = some (Except.ok
            ((selectionPath chainUI 0 [1, 2]).all (fun x => (chainHeap x).selected_))) :=
  ⟨chainHeap_owners,
   C16_IsHierarchySelected_terminates chainHeap chainUI 2 0 [1, 2] chainHeap_owners 3
     (by decide),
   C16_IsHierarchySelected_terminates chainHeap chainUI 2 0 [1, 2] chainHeap_owners 10
     (by decide)⟩

/-! ## The recursive form of `WidgetPointToScreen` -/

/-- Closed form of the recursive definition on a widget whose parent walk
ends. -/
theorem WidgetPointToScreen_recursive_eq (heap : Heap) (T : ContainerTransforms)
    (chain : List WidgetId) :
    ∀ (fuel : Nat) (w : WidgetId) (p : Point),
      collectParents heap fuel (heap w).parent_widget_ = some chain →
      WidgetPointToScreen_recursive heap T fuel w p
        = some (fromChildInnermostFirst T w chain p) := by
  induction chain with
  | nil =>
    intro fuel w p h
    have hnone := collectParents_nil heap fuel _ h
    cases fuel <;> simp [WidgetPointToScreen_recursive, hnone, fromChildInnermostFirst]
  | cons c rest ih =>
    intro fuel w p h
    have hsome := collectParents_cons heap fuel _ c rest h
    rw [hsome] at h
    obtain ⟨n, rfl, hn⟩ := collectParents_succ_cons heap fuel c rest h
    simp only [WidgetPointToScreen_recursive, hsome, fromChildInnermostFirst]
    exact ih n c _ hn

/-- C17: the iterative `WidgetPointToScreen` equals its recursive definition. On
a widget `w` with parent `c` whose parent walk ends, it returns, and
`WidgetPointToScreen_w(p) = WidgetPointToScreen_c(c.TransformPointFromChild(p, w))`:
the from-child map of the immediate parent is applied first and those of the
further ancestors after it, moving outward. -/
theorem C17_WidgetPointToScreen_recursive (heap : Heap) (T : ContainerTransforms)
    (fuel : Nat) (w c : WidgetId) (chain : List WidgetId) (p : Point)
    (hparent : (heap w).parent_widget_ = some c)
    (hchain : collectParents heap fuel (some c) = some chain) :
    WidgetPointToScreen heap T fuel w p
        = WidgetPointToScreen heap T fuel c (T.TransformPointFromChild c w p)
    ∧ WidgetPointToScreen heap T fuel w p = WidgetPointToScreen_recursive heap T fuel w p
    ∧ ∃ r, WidgetPointToScreen heap T fuel w p = some r := by
  have hw : collectParents heap fuel (heap w).parent_widget_ = some chain := by
    rw [hparent]; exact hchain
  obtain ⟨rest, rfl⟩ := collectParents_some_cons heap fuel c chain hchain
  obtain ⟨n, hfuel, hn⟩ := collectParents_succ_cons heap fuel c rest hchain
  have hc : collectParents heap fuel (heap c).parent_widget_ = some rest :=
    collectParents_mono heap n fuel _ rest (by omega) hn
  have h1 := WidgetPointToScreen_eq heap T fuel w (c :: rest) p hw
  refine ⟨?_, ?_, _, h1⟩
  · rw [h1, WidgetPointToScreen_eq heap T fuel c rest _ hc]
    rfl
  · rw [h1, WidgetPointToScreen_recursive_eq heap T (c :: rest) fuel w p hw]

theorem C17_WidgetPointToScreen_recursive_witness :
    (chainHeap 0).parent_widget_ = some 1
    ∧ collectParents chainHeap 2 (some 1) = some [1, 2]
    ∧ WidgetPointToScreen chainHeap shiftScale 2 0 (3, 5)
        = WidgetPointToScreen chainHeap shiftScale 2 1
            (shiftScale.TransformPointFromChild 1 0 (3, 5))
    ∧ WidgetPointToScreen chainHeap shiftScale 2 0 (3, 5)
        = WidgetPointToScreen_recursive chainHeap shiftScale 2 0 (3, 5) :=
  ⟨rfl, chainHeap_parents,
   (C17_WidgetPointToScreen_recursive chainHeap shiftScale 2 0 1 [1, 2] (3, 5) rfl
     chainHeap_parents).1,
   (C17_WidgetPointToScreen_recursive chainHeap shiftScale 2 0 1 [1, 2] (3, 5) rfl
     chainHeap_parents).2.1⟩

/-! ## Unfolding `IsHierarchySelected` -/

theorem GetOwnerWidget_setSelectedFlag (heap : Heap) (r : WidgetId) (flag : Bool)
    (x : WidgetId) :
    GetOwnerWidget (setSelectedFlag heap r flag x) = GetOwnerWidget (heap x) := by
  by_cases hx : x = r <;> simp [setSelectedFlag, GetOwnerWidget, hx]

/-- With the UI created, the flag of the root widget does not enter the answer
for any other widget. -/
theorem IsHierarchySelected_root_flag (heap : Heap) (ui : UI) (root : WidgetId)
    (flag : Bool) (hroot : ui.root_widget = some root) :
    ∀ (fuel : Nat) (w : WidgetId), w ≠ root →
      IsHierarchySelected (setSelectedFlag heap root flag) (some ui) fuel w
        = IsHierarchySelected heap (some ui) fuel w := by
  intro fuel
  induction fuel with
  | zero => intro w _; rfl
  | succ n ih =>
    intro w hw
    have hsel : (setSelectedFlag heap root flag w).selected_ = (heap w).selected_ := by
      simp [setSelectedFlag, hw]
    rw [IsHierarchySelected, IsHierarchySelected, hsel, GetOwnerWidget_setSelectedFlag]
    cases hown : GetOwnerWidget (heap w) with
    | none => rfl
    | some o =>
      by_cases ho : some o = ui.root_widget
      · simp [ho]
      · have hne : o ≠ root := by
          intro e
          exact ho (by rw [e, hroot])
        simp only [ho, if_false, ih o hne]

/-- With the UI created, on a widget `w` whose owner chain ends,
`IsHierarchySelected(w)` is `selected(w)` AND (the owner of `w` is null, OR it
is the root widget, OR `IsHierarchySelected` of the owner); so the flag of the
root widget has no influence on the answer for any other widget, while for the
root widget itself an unset flag gives false. -/
theorem IsHierarchySelected_unfold (heap : Heap) (ui : UI) (fuel : Nat)
    (w : WidgetId) (owners : List WidgetId)
    (hchain : ownerChain heap fuel (GetOwnerWidget (heap w)) = some owners) :
    (∃ above : Bool,
        IsHierarchySelected heap (some ui) (fuel + 1) w
          = some (Except.ok ((heap w).selected_ && above))
        ∧ (above = true ↔
            GetOwnerWidget (heap w) = none
            ∨ (∃ o, GetOwnerWidget (heap w) = some o ∧ some o = ui.root_widget)
            ∨ (∃ o, GetOwnerWidget (heap w) = some o
                ∧ IsHierarchySelected heap (some ui) fuel o = some (Except.ok true))))
    ∧ (∀ root flag, ui.root_widget = some root → w ≠ root →
        IsHierarchySelected (setSelectedFlag heap root flag) (some ui) (fuel + 1) w
          = IsHierarchySelected heap (some ui) (fuel + 1) w)
    ∧ (ui.root_widget = some w → (heap w).selected_ = false →
        IsHierarchySelected heap (some ui) (fuel + 1) w = some (Except.ok false)) := by
  refine ⟨?_, ?_, ?_⟩
  · cases hown : GetOwnerWidget (heap w) with
    | none =>
      refine ⟨true, ?_, by simp⟩
      cases hsel : (heap w).selected_ <;> simp [IsHierarchySelected, hown, hsel]
    | some o =>
      by_cases ho : some o = ui.root_widget
      · refine ⟨true, ?_, ?_⟩
        · rw [IsHierarchySelected]
          cases hsel : (heap w).selected_ <;> simp [hown, if_pos ho]
        · simp only [true_iff]
          exact Or.inr (Or.inl ⟨o, rfl, ho⟩)
      · rw [hown] at hchain
        cases fuel with
        | zero => simp [ownerChain] at hchain
        | succ n =>
          simp only [ownerChain] at hchain
          cases hc : ownerChain heap n (GetOwnerWidget (heap o)) with
          | none => simp [hc] at hchain
          | some rest =>
            have ho' := IsHierarchySelected_eq heap ui rest n o hc
            refine ⟨(selectionPath ui o rest).all (fun x => (heap x).selected_), ?_, ?_⟩
            · rw [IsHierarchySelected]
              cases hsel : (heap w).selected_ <;> simp [hown, ho, ho']
            · constructor
              · intro h
                exact Or.inr (Or.inr ⟨o, rfl, by rw [ho', h]⟩)
              · rintro (h | ⟨o', h1, h2⟩ | ⟨o', h1, h2⟩)
                · cases h
                · cases h1
                  exact absurd h2 ho
                · cases h1
                  rw [ho'] at h2
                  exact Except.ok.inj (Option.some.inj h2)
  · intro root flag hroot hne
    exact IsHierarchySelected_root_flag heap ui root flag hroot (fuel + 1) w hne
  · intro _ hsel
    simp [IsHierarchySelected, hsel]

/-- C18 at the failing input: on the hierarchy `0 → 1 → 2` with every widget
selected and a call before the UI is created, widget `1` is selected, its owner
is widget `2`, and `IsHierarchySelected` of widget `2` returns true, so the
unfolding gives true for widget `1`; the code instead evaluates
`g_ui->root_widget()` on the null `g_ui` and returns nothing. With the UI
created the same call returns true. -/
theorem C18_IsHierarchySelected_unfold_null_ui_fault (fuel : Nat) :
    (selectedChainHeap 1).selected_ = true
    ∧ GetOwnerWidget (selectedChainHeap 1) = some 2
    ∧ IsHierarchySelected selectedChainHeap none (fuel + 1) 2 = some (Except.ok true)
    ∧ IsHierarchySelected selectedChainHeap none (fuel + 1) 1
        = some (Except.error Fault.null_g_ui_dereferenced)
    ∧ IsHierarchySelected selectedChainHeap none (fuel + 1) 1
        ≠ some (Except.ok ((selectedChainHeap 1).selected_ && true))
    ∧ IsHierarchySelected selectedChainHeap (some chainUI) (fuel + 1) 1
        = some (Except.ok true) := by
  have h1 : IsHierarchySelected selectedChainHeap none (fuel + 1) 1
      = some (Except.error Fault.null_g_ui_dereferenced) := by
    rw [IsHierarchySelected_null_ui]
    simp [selectedChainHeap, plainWidget, GetOwnerWidget]
  refine ⟨rfl, rfl, ?_, h1, ?_, ?_⟩
  · rw [IsHierarchySelected_null_ui]
    simp [selectedChainHeap, plainWidget, GetOwnerWidget]
  · rw [h1]
    intro h
    cases Option.some.inj h
  · rw [IsHierarchySelected]
    simp [selectedChainHeap, plainWidget, GetOwnerWidget, chainUI]

/-! ## The sanity test leaves the result alone -/

theorem WidgetPointToScreen_returns_of_transform (heap : Heap) (T : ContainerTransforms)
    (fuel : Nat) (this : WidgetId) (p q q' : Point)
    (h : ScreenPointToWidget_transform heap T fuel this p = some q) :
    ∃ t, WidgetPointToScreen heap T fuel this q' = some t := by
  unfold ScreenPointToWidget_transform at h
  unfold WidgetPointToScreen
  cases hp : (heap this).parent_widget_ with
  | none => exact ⟨q', rfl⟩
  | some w =>
    rw [hp] at h
    cases hc : collectParents heap fuel (some w) with
    | none => simp [hc] at h
    | some widgets =>
      simp only [hc]
      exact ⟨_, rfl⟩

/-- C19: the sanity test does not touch the result. For every widget, point and
fuel, `ScreenPointToWidget` built with the test returns (or fails to return)
exactly as built without it, and the point is the same; the builds differ only
in what is logged. On the hierarchy `0 → 1 → 2` with containers whose maps are
not inverse the test logs a mismatch and the point is still the same. -/
theorem C19_sanity_check_no_effect (heap : Heap) (T : ContainerTransforms) (fuel : Nat)
    (this : WidgetId) (p : Point) :
    (ScreenPointToWidget true heap T fuel this p).map Prod.fst
        = (ScreenPointToWidget false heap T fuel this p).map Prod.fst
    ∧ (ScreenPointToWidget false heap T fuel this p).map Prod.fst
        = ScreenPointToWidget_transform heap T fuel this p
    ∧ ScreenPointToWidget true chainHeap driftingTransforms 2 0 (0, 0)
        = some ((0, 0), [{ expected := (0, 0), got := (2, 0) }])
    ∧ ScreenPointToWidget false chainHeap driftingTransforms 2 0 (0, 0)
        = some ((0, 0), []) := by
  have hfalse : (ScreenPointToWidget false heap T fuel this p).map Prod.fst
      = ScreenPointToWidget_transform heap T fuel this p := by
    unfold ScreenPointToWidget
    cases ScreenPointToWidget_transform heap T fuel this p <;> simp
  have htrue : (ScreenPointToWidget true heap T fuel this p).map Prod.fst
      = ScreenPointToWidget_transform heap T fuel this p := by
    cases ht : ScreenPointToWidget_transform heap T fuel this p with
    | none => simp [ScreenPointToWidget, ht]
    | some q =>
      obtain ⟨t, hw⟩ := WidgetPointToScreen_returns_of_transform heap T fuel this p q q ht
      simp only [ScreenPointToWidget, ht, hw, if_true]
      split <;> rfl
  have ht0 : ScreenPointToWidget_transform chainHeap driftingTransforms 2 0 (0, 0)
      = some (0, 0) := by
    rw [ScreenPointToWidget_transform_eq chainHeap driftingTransforms 2 0 [1, 2] (0, 0)
      chainHeap_parents]
    simp [toChildOutermostFirst, driftingTransforms]
  have hw0 : WidgetPointToScreen chainHeap driftingTransforms 2 0 (0, 0) = some (2, 0) := by
    rw [WidgetPointToScreen_eq chainHeap driftingTransforms 2 0 [1, 2] (0, 0)
      chainHeap_parents]
    simp [fromChildInnermostFirst, driftingTransforms]
    norm_num
  refine ⟨htrue.trans hfalse.symm, hfalse, ?_, ?_⟩
  · simp only [ScreenPointToWidget, ht0, hw0, if_true]
    norm_num
  · simp only [ScreenPointToWidget, ht0]
    rfl

end Ballistica
